import Mathlib

set_option maxRecDepth 8192

/-!
Verification development for the quill-claude-extension bridge
(`src/index.js`): connection lifecycle, RPC correlation engine, and the
tool adapter.  JavaScript values flowing through the wire are modelled by
an explicit `Json` type (with `Option Json` standing for a possibly
`undefined` value); the stateful parts (socket handle, pending-call map,
correlation counter) are modelled by explicit state passing, and the
observable effects of the handlers (resolving/rejecting promises,
clearing timers) are recorded as event lists.
-/

namespace Quill

/-- JSON values as produced by `JSON.parse`.  `undefined` is represented
outside this type, by `Option Json` (`none` = absent/undefined). -/
inductive Json where
  | jnull : Json
  | jbool : Bool → Json
  | jnum : Int → Json
  | jstr : String → Json
  | jarr : List Json → Json
  | jobj : List (String × Json) → Json

/-- JavaScript truthiness of a possibly-undefined value (`undefined`,
`null`, `false`, `0`, and the empty string are falsy). -/
def jsFalsy : Option Json → Bool
  | none => true
  | some .jnull => true
  | some (.jbool b) => !b
  | some (.jnum n) => n == 0
  | some (.jstr s) => s == ""
  | some (.jarr _) => false
  | some (.jobj _) => false

/-- JavaScript `String(v)` coercion at bounded depth (arrays join their
elements with commas, `null` elements becoming empty).  The fuel only
bounds nesting of arrays; `jsToString` below supplies fuel that always
suffices, keeping the definition kernel-reducible. -/
def jsToStringD (fuel : Nat) : Json → String
  | .jnull => "null"
  | .jbool b => if b then "true" else "false"
  | .jnum n => toString n
  | .jstr s => s
  | .jarr xs =>
    match fuel with
    | 0 => ""
    | d + 1 =>
      String.intercalate ","
        (xs.map (fun v =>
          match v with
          | .jnull => ""
          | v => jsToStringD d v))
  | .jobj _ => "[object Object]"

/-- An upper bound on the array nesting depth of a JSON value. -/
def jsize : Json → Nat
  | .jarr xs => 1 + (xs.attach.map (fun a => jsize a.1)).foldl max 0
  | _ => 1
termination_by j => sizeOf j
decreasing_by
  have h := List.sizeOf_lt_of_mem a.2
  simp only [Json.jarr.sizeOf_spec]
  omega

/-- JavaScript `String(v)` coercion, on the cases the bridge can meet
(`jsize v` dominates array nesting depth, so the fuel never runs out;
non-array values ignore the fuel entirely). -/
def jsToString (j : Json) : String :=
  match j with
  | .jarr xs => jsToStringD (jsize (.jarr xs)) (.jarr xs)
  | j => jsToStringD 1 j

/-- Field lookup on a JavaScript object literal (first binding wins);
`none` models reading an absent property. -/
def jlookup {α : Type} (fields : List (String × α)) (k : String) : Option α :=
  match fields with
  | [] => none
  | (k', v) :: rest => if k' = k then some v else jlookup rest k

/-- The nullish-coalescing operator `x ?? d` (`undefined` and `null`
both fall back to the default). -/
def nullish (x : Option Json) (d : Json) : Json :=
  match x with
  | none => d
  | some .jnull => d
  | some v => v

/-! ## Connection manager (src/index.js lines 23-78) -/

/-- WebSocket ready states. -/
inductive ReadyState where
  | CONNECTING | OPEN | CLOSING | CLOSED
deriving DecidableEq

/-- The part of a `WebSocket` handle the bridge observes. -/
structure Socket where
  url : String
  readyState : ReadyState
deriving DecidableEq

/-- Platform-dependent endpoint path (src/index.js line 25). -/
def SOCKET_PATH (isWindows : Bool) : String :=
  if isWindows then "\\\\.\\pipe\\quill_mcp" else "/tmp/quill_mcp.sock"

/-- Platform-dependent client URL (src/index.js line 26). -/
def CLIENT_URL (isWindows : Bool) : String :=
  if isWindows then "ws+pipe://./pipe/quill_mcp" else "ws+unix://" ++ SOCKET_PATH false

/-- Observable side effects of `ensureSocket`. -/
inductive WsAction where
  | terminate : WsAction
  | create : String → WsAction
deriving DecidableEq

/-- `new WebSocket(CLIENT_URL)` starts in the CONNECTING state. -/
def newSocket (isWindows : Bool) : Socket :=
  { url := CLIENT_URL isWindows, readyState := .CONNECTING }

/-- `ensureSocket()` (src/index.js lines 34-78): returns the held socket
if it is OPEN or CONNECTING; otherwise terminates and discards a
CLOSING/CLOSED handle and creates a fresh socket toward `CLIENT_URL`.
Returns the socket handed back to the caller, the new held handle, and
the actions performed. -/
def ensureSocket (isWindows : Bool) (ws : Option Socket) :
    Socket × Option Socket × List WsAction :=
  match ws with
  | some s =>
    match s.readyState with
    | .OPEN => (s, some s, [])
    | .CONNECTING => (s, some s, [])
    | .CLOSING =>
      let n := newSocket isWindows
      (n, some n, [.terminate, .create (CLIENT_URL isWindows)])
    | .CLOSED =>
      let n := newSocket isWindows
      (n, some n, [.terminate, .create (CLIENT_URL isWindows)])
  | none =>
    let n := newSocket isWindows
    (n, some n, [.create (CLIENT_URL isWindows)])

/-! ## Pending call registry (src/index.js lines 30-32, 50-73, 121-139) -/

/-- One pending call entry: the caller identity (whose promise the
`resolve`/`reject` callbacks settle) and the timer handle. -/
structure Entry where
  caller : Nat
  timer : Nat
deriving DecidableEq

/-- The `pending` map, keyed by stringified correlation id, in insertion
order (as a JavaScript `Map` iterates). -/
abbrev Pending := List (String × Entry)

/-- `pending.get(k)`. -/
def mapGet (p : Pending) (k : String) : Option Entry :=
  match p with
  | [] => none
  | (k', e) :: rest => if k' = k then some e else mapGet rest k

/-- `pending.delete(k)`. -/
def mapDelete (p : Pending) (k : String) : Pending :=
  p.filter (fun q => q.1 ≠ k)

/-- How a pending promise is rejected. -/
inductive RejectReason where
  | fromError : Json → RejectReason
  | socketClosed : RejectReason
  | timeout : RejectReason
  | sendFailed : RejectReason

/-- Observable effects of the registry handlers. -/
inductive Ev where
  | clearTimer : Nat → Ev
  | resolve : Nat → Option Json → Ev
  | reject : Nat → RejectReason → Ev
  | logParseError : Ev

/-- An inbound frame after `JSON.parse`: the three destructured fields
(`id`, `result`, `error`), each possibly absent. -/
structure InMsg where
  id : Option Json
  result : Option Json
  error : Option Json

/-- The `message` handler (src/index.js lines 50-64).  `none` input
models a frame whose `JSON.parse` threw: the error is logged and
nothing else happens.  A falsy or unknown id is a no-op. -/
def handleMessage (raw : Option InMsg) (p : Pending) : Pending × List Ev :=
  match raw with
  | none => (p, [.logParseError])
  | some m =>
    if jsFalsy m.id then (p, [])
    else
      match m.id with
      | none => (p, [])
      | some idv =>
        let key := jsToString idv
        match mapGet p key with
        | none => (p, [])
        | some entry =>
          let p' := mapDelete p key
          if jsFalsy m.error then
            (p', [.clearTimer entry.timer, .resolve entry.caller m.result])
          else
            match m.error with
            | some errv =>
              (p', [.clearTimer entry.timer, .reject entry.caller (.fromError errv)])
            | none => (p', [.clearTimer entry.timer, .resolve entry.caller m.result])

/-- The `close` handler (src/index.js lines 65-73): for every entry, in
map order, clear its timer and reject it with the uniform
`socket_closed` error; then `pending.clear()`. -/
def handleClose (p : Pending) : Pending × List Ev :=
  ([], p.flatMap (fun q => [.clearTimer q.2.timer, .reject q.2.caller .socketClosed]))

/-- The per-call timeout callback (src/index.js lines 124-127): remove
the entry from the map and reject the call with the timeout error. -/
def timerFire (id : String) (caller : Nat) (p : Pending) : Pending × List Ev :=
  (mapDelete p id, [.reject caller .timeout])

/-- JavaScript decimal stringification of a non-negative number, as
performed by `String(nextId++)`. -/
def decStr (n : Nat) : String :=
  if n = 0 then "0" else String.mk ((Nat.digits 10 n).reverse.map Nat.digitChar)

/-- Registration state of the RPC client: the correlation counter and
the pending map (a fresh timer handle is drawn from `nextTimer`). -/
structure RegState where
  nextId : Nat
  nextTimer : Nat
  pending : Pending

/-- Modelled from the spec: the per-call timeout.  The default 10000 ms
is `TIMEOUT_MS` at src/index.js line 23; the environment-supplied
override (README: `MCP_TOOL_TIMEOUT_MS`) lives in the repository's
second `index.js` variant, which is not under `src/` (spec section 6,
timeout configuration). -/
def TIMEOUT_MS (envOverride : Option Nat) : Nat := envOverride.getD 10000

/-- One registration step of `callBridge` (src/index.js lines 121-129):
allocate `String(nextId++)` as the correlation id, start a timer for
`TIMEOUT_MS` milliseconds, and insert the entry into the pending map.
Returns the id, the scheduled timer duration, and the new state. -/
def registerCall (envTimeout : Option Nat) (st : RegState) : String × Nat × RegState :=
  let id := decStr st.nextId
  (id, TIMEOUT_MS envTimeout,
   { nextId := st.nextId + 1,
     nextTimer := st.nextTimer + 1,
     pending := st.pending ++ [(id, ⟨st.nextId, st.nextTimer⟩)] })

/-- The ids allocated by `n` successive calls starting from `st`. -/
def allocIds (envTimeout : Option Nat) (st : RegState) : Nat → List String
  | 0 => []
  | n + 1 =>
    let (id, _, st') := registerCall envTimeout st
    id :: allocIds envTimeout st' n

/-! ## Tool adapter (src/index.js lines 269-352) -/

/-- The optional argument fields read by the tool handler
(`request.params.arguments`); `none` models an omitted property.  The
JavaScript properties `from` and `to` are spelled `from_` and `to_`
because both are Lean keywords. -/
structure ToolArgs where
  limit : Option Json
  offset : Option Json
  from_ : Option Json
  to_ : Option Json
  type : Option Json
  q : Option Json
  query : Option Json
  thread_id : Option Json
  contact_ids : Option Json
  id : Option Json
  prefer_existing_minutes : Option Json
  meeting_id : Option Json
  template_id : Option Json
  include_body : Option Json
  include_meetings : Option Json
  meetings_limit : Option Json

/-- An empty `arguments` object. -/
def noArgs : ToolArgs :=
  ⟨none, none, none, none, none, none, none, none,
   none, none, none, none, none, none, none, none⟩

/-- The method and params object handed to `callBridge` for each tool
name (src/index.js lines 273-345); `none` for an unknown tool, which
never reaches `callBridge`.  A param bound to `none` models a property
whose value is `undefined`. -/
def sentRequest (name : String) (args : ToolArgs) :
    Option (String × List (String × Option Json)) :=
  if name = "list_meetings" then
    some ("list_meetings",
      [("limit", some (nullish args.limit (.jnum 10))),
       ("offset", some (nullish args.offset (.jnum 0))),
       ("from", args.from_), ("to", args.to_), ("type", args.type), ("q", args.q)])
  else if name = "get_meeting" then
    some ("get_meeting", [("id", args.id)])
  else if name = "search_meetings" then
    some ("search_meetings",
      [("query", args.query),
       ("limit", some (nullish args.limit (.jnum 10))),
       ("offset", some (nullish args.offset (.jnum 0))),
       ("thread_id", args.thread_id), ("contact_ids", args.contact_ids)])
  else if name = "get_minutes" then
    some ("get_minutes",
      [("id", args.id), ("prefer_existing_minutes", args.prefer_existing_minutes)])
  else if name = "get_transcript" then
    some ("get_transcript", [("id", args.id)])
  else if name = "list_notes" then
    some ("list_notes",
      [("meeting_id", args.meeting_id), ("template_id", args.template_id),
       ("include_body", args.include_body),
       ("limit", some (nullish args.limit (.jnum 10))),
       ("offset", some (nullish args.offset (.jnum 0)))])
  else if name = "get_note" then
    some ("get_note", [("id", args.id), ("include_body", args.include_body)])
  else if name = "list_contacts" then
    some ("list_contacts",
      [("q", args.q),
       ("limit", some (nullish args.limit (.jnum 10))),
       ("offset", some (nullish args.offset (.jnum 0)))])
  else if name = "get_contact" then
    some ("get_contact", [("id", args.id)])
  else if name = "search_contacts" then
    some ("search_contacts",
      [("query", args.query),
       ("limit", some (nullish args.limit (.jnum 10))),
       ("offset", some (nullish args.offset (.jnum 0)))])
  else if name = "list_threads" then
    some ("list_threads",
      [("include_meetings", args.include_meetings),
       ("meetings_limit", some (nullish args.meetings_limit (.jnum 10)))])
  else none

/-- Value of one property of the params object sent for a tool call. -/
def sentParam (name : String) (args : ToolArgs) (k : String) : Option (Option Json) :=
  match sentRequest name args with
  | none => none
  | some (_, ps) => jlookup ps k

/-- The value the awaited `callBridge(...)` settled with: the `result`
field of the correlated reply (possibly `undefined`), or a rejection
carrying an error message. -/
inductive BridgeOutcome where
  | ok : Option Json → BridgeOutcome
  | err : String → BridgeOutcome

/-- One element of the returned `content` array: the serialized form of
a JavaScript value (`JSON.stringify(v, null, 2)`, kept symbolic), or the
plain error text built in the catch block. -/
inductive ContentText where
  | jsonOf : Option Json → ContentText
  | plain : String → ContentText

/-- The object returned to the MCP host.  `isError` is `none` when the
returned object literal has no `isError` property at all. -/
structure ToolResult where
  content : List ContentText
  isError : Option Bool

/-- JavaScript property read `data.k`: throws a TypeError on
`undefined`/`null`, yields `undefined` on other non-objects. -/
def getProp (data : Option Json) (k : String) : Except String (Option Json) :=
  match data with
  | none => .error "TypeError: cannot read properties of undefined"
  | some .jnull => .error "TypeError: cannot read properties of null"
  | some (.jobj fs) => .ok (jlookup fs k)
  | some _ => .ok none

/-- Per-tool shaping of the resolved bridge data into the returned text
(src/index.js lines 282, 287, 298, 303, 308, 319, 324, 329, 334, 339,
344), or the thrown error. -/
def toolOutput (name : String) (data : Option Json) : Except String ContentText :=
  if name = "list_meetings" then do
    let m ← getProp data "meetings"
    pure (.jsonOf (some (nullish m (.jarr []))))
  else if name = "get_meeting" then do
    let m ← getProp data "meeting"
    pure (.jsonOf (some (nullish m .jnull)))
  else if name = "search_meetings" then do
    let m ← getProp data "meetings"
    pure (.jsonOf (some (nullish m (.jarr []))))
  else if name = "get_minutes" then pure (.jsonOf data)
  else if name = "get_transcript" then pure (.jsonOf data)
  else if name = "list_notes" then do
    let m ← getProp data "notes"
    pure (.jsonOf (some (nullish m (.jarr []))))
  else if name = "get_note" then do
    let m ← getProp data "note"
    pure (.jsonOf (some (nullish m .jnull)))
  else if name = "list_contacts" then do
    let m ← getProp data "contacts"
    pure (.jsonOf (some (nullish m (.jarr []))))
  else if name = "get_contact" then do
    let m ← getProp data "contact"
    pure (.jsonOf (some (nullish m .jnull)))
  else if name = "search_contacts" then do
    let m ← getProp data "contacts"
    pure (.jsonOf (some (nullish m (.jarr []))))
  else if name = "list_threads" then do
    let m ← getProp data "threads"
    pure (.jsonOf (some (nullish m (.jarr []))))
  else .error ("Unknown tool: " ++ name)

/-- The body of the try block: unknown tools throw before any bridge
call; known tools await the bridge outcome (a rejection rethrows into
the catch) and shape the resolved data. -/
def runTool (name : String) (args : ToolArgs) (outcome : BridgeOutcome) :
    Except String ContentText :=
  match sentRequest name args with
  | none => .error ("Unknown tool: " ++ name)
  | some _ =>
    match outcome with
    | .err e => .error e
    | .ok data => toolOutput name data

/-- The whole `CallToolRequestSchema` handler (src/index.js lines
269-352): the try body, with the catch block turning any thrown or
rejected error into a text result flagged `isError: true`.  Success
results return the object literal without an `isError` property. -/
def handleCallTool (name : String) (args : ToolArgs) (outcome : BridgeOutcome) :
    ToolResult :=
  match runTool name args outcome with
  | .ok c => { content := [c], isError := none }
  | .error msg => { content := [.plain ("Error: " ++ msg)], isError := some true }

/-! ## Authentication gate ordering

The Authentication Gate also lives only in the second `index.js`
variant (not under `src/`); the transition system below is modelled
from the spec (sections 4.2, 4.4 and 5): each call suspends on the
gate's awaitable for its connection instance and may write its request
frame only after that await completes, while the event loop interleaves
the calls and the gate resolution arbitrarily. -/

/-- Modelled from the spec: the progress of one `callBridge` invocation
relative to the Authentication Gate — suspended on the gate's
awaitable, resumed and about to send, or already sent. -/
inductive CallStage where
  | waitingAuth | readySend | sent
deriving DecidableEq

/-- Modelled from the spec: one in-flight call with its correlation
number and the connection instance it runs on. -/
structure CallProc where
  callId : Nat
  conn : Nat
  stage : CallStage
deriving DecidableEq

/-- Observable events of the gate system: a connection instance's
authentication latch resolving, and a request frame for a given call
being written to the transport of a given connection instance. -/
inductive AuthEv where
  | authResolved : Nat → AuthEv
  | sendFrame : Nat → Nat → AuthEv
deriving DecidableEq

/-- A configuration of the event loop: the in-flight calls, the set of
connection instances whose latch has resolved, and the event trace so
far. -/
structure GateSys where
  calls : List CallProc
  resolved : List Nat
  trace : List AuthEv

/-- Modelled from the spec: the event-loop steps.  The gate for some
connection instance may resolve at any time; a call suspended on the
gate resumes only once its own connection instance has resolved; a
resumed call writes its frame. -/
inductive GateStep : GateSys → GateSys → Prop where
  | resolveAuth (s : GateSys) (k : Nat) :
      GateStep s ⟨s.calls, k :: s.resolved, s.trace ++ [.authResolved k]⟩
  | passGate (s : GateSys) (pre post : List CallProc) (i k : Nat)
      (hc : s.calls = pre ++ ⟨i, k, .waitingAuth⟩ :: post)
      (hk : k ∈ s.resolved) :
      GateStep s ⟨pre ++ ⟨i, k, .readySend⟩ :: post, s.resolved, s.trace⟩
  | sendStep (s : GateSys) (pre post : List CallProc) (i k : Nat)
      (hc : s.calls = pre ++ ⟨i, k, .readySend⟩ :: post) :
      GateStep s ⟨pre ++ ⟨i, k, .sent⟩ :: post, s.resolved,
                  s.trace ++ [.sendFrame i k]⟩

/-- Reachability under arbitrarily many event-loop steps. -/
def GateReaches : GateSys → GateSys → Prop := Relation.ReflTransGen GateStep

/-- An initial configuration: every queued call (given by correlation
number and connection instance) is suspended on the gate, no latch has
resolved, and nothing was sent. -/
def initGateSys (queued : List (Nat × Nat)) : GateSys :=
  ⟨queued.map (fun p => ⟨p.1, p.2, .waitingAuth⟩), [], []⟩

/-- The inductive invariant of the gate system: resolved instances have
their resolution on the trace, any call past the gate has its
connection's resolution on the trace, and every sent frame is preceded
on the trace by its connection's resolution. -/
def GateInv (s : GateSys) : Prop :=
  (∀ k ∈ s.resolved, AuthEv.authResolved k ∈ s.trace) ∧
  (∀ c ∈ s.calls, c.stage ≠ CallStage.waitingAuth →
    AuthEv.authResolved c.conn ∈ s.trace) ∧
  (∀ i k pre suf, s.trace = pre ++ AuthEv.sendFrame i k :: suf →
    AuthEv.authResolved k ∈ pre)

/-! ## Schema-version cache

The `_clientSchemaVersion` mechanism also lives only in the second
`index.js` variant (not under `src/`); the definitions below are
modelled from the spec (sections 3 and 4.5): the adapter caches the
version marker, attaches it to every outbound call's params, and
clears it when a structured error denotes a stale schema. -/

/-- Modelled from the spec: the params object sent for an invocation,
with the cached schema version attached as the out-of-band
`_clientSchemaVersion` field when one is cached. -/
def invokeParams (cached : Option Int) (args : List (String × Json)) :
    List (String × Json) :=
  match cached with
  | some v => args ++ [("_clientSchemaVersion", .jnum v)]
  | none => args

/-- The adapter's user-facing result of one capability invocation. -/
inductive CapOutcome where
  | success : Option Json → CapOutcome
  | schemaOutdatedRetry : CapOutcome
  | genericFailure : String → CapOutcome

/-- The explicit failure flag carried by the adapter result. -/
def capIsError : CapOutcome → Bool
  | .success _ => false
  | .schemaOutdatedRetry => true
  | .genericFailure _ => true

/-- Whether a structured error denotes a stale schema (its `code` field
is the string `schema_outdated`). -/
def isSchemaOutdated (e : Json) : Bool :=
  match e with
  | .jobj fs =>
    match jlookup fs "code" with
    | some (.jstr s) => s == "schema_outdated"
    | _ => false
  | _ => false

/-- Modelled from the spec: the adapter's handling of a settled
invocation — on a stale-schema error, clear the cached version and
return the failure result instructing the caller to retry; on any other
error, keep the cache and return a generic error result; never throw
(totality of this function). -/
def invokeCapability (cached : Option Int) (reply : Except Json (Option Json)) :
    Option Int × CapOutcome :=
  match reply with
  | .ok d => (cached, .success d)
  | .error e =>
    if isSchemaOutdated e then (none, .schemaOutdatedRetry)
    else (cached, .genericFailure (jsToString e))

/-! ## Authentication handshake HMAC

The authentication handshake lives in the repository's second
`index.js` variant, which is not included under `src/`; the definitions
below are modelled from the spec (section 4.2 and the handshake wire
format of section 6).  SHA-256 and HMAC follow FIPS 180-4 / RFC 2104;
words are naturals reduced modulo `2 ^ 32`. -/

namespace Crypto

/-- Reduction to a 32-bit word. -/
def w32 (n : Nat) : Nat := n % 4294967296

/-- Right rotation of a 32-bit word. -/
def rotr (n x : Nat) : Nat := w32 ((x >>> n) ||| (x <<< (32 - n)))

/-- SHA-256 round constants. -/
def K256 : List Nat :=
  [1116352408, 1899447441, 3049323471, 3921009573, 961987163, 1508970993,
   2453635748, 2870763221, 3624381080, 310598401, 607225278, 1426881987,
   1925078388, 2162078206, 2614888103, 3248222580, 3835390401, 4022224774,
   264347078, 604807628, 770255983, 1249150122, 1555081692, 1996064986,
   2554220882, 2821834349, 2952996808, 3210313671, 3336571891, 3584528711,
   113926993, 338241895, 666307205, 773529912, 1294757372, 1396182291,
   1695183700, 1986661051, 2177026350, 2456956037, 2730485921, 2820302411,
   3259730800, 3345764771, 3516065817, 3600352804, 4094571909, 275423344,
   430227734, 506948616, 659060556, 883997877, 958139571, 1322822218,
   1537002063, 1747873779, 1955562222, 2024104815, 2227730452, 2361852424,
   2428436474, 2756734187, 3204031479, 3329325298]

/-- SHA-256 initial hash value. -/
def H0 : List Nat :=
  [1779033703, 3144134277, 1013904242, 2773480762,
   1359893119, 2600822924, 528734635, 1541459225]

/-- Lower-case sigma-0 message schedule function. -/
def ssig0 (x : Nat) : Nat := (rotr 7 x) ^^^ (rotr 18 x) ^^^ (x >>> 3)

/-- Lower-case sigma-1 message schedule function. -/
def ssig1 (x : Nat) : Nat := (rotr 17 x) ^^^ (rotr 19 x) ^^^ (x >>> 10)

/-- Upper-case sigma-0 round function. -/
def bsig0 (x : Nat) : Nat := (rotr 2 x) ^^^ (rotr 13 x) ^^^ (rotr 22 x)

/-- Upper-case sigma-1 round function. -/
def bsig1 (x : Nat) : Nat := (rotr 6 x) ^^^ (rotr 11 x) ^^^ (rotr 25 x)

/-- Choice function (the complement is taken by xor with the all-ones
32-bit mask). -/
def chF (x y z : Nat) : Nat := (x &&& y) ^^^ ((x ^^^ 4294967295) &&& z)

/-- Majority function. -/
def majF (x y z : Nat) : Nat := (x &&& y) ^^^ (x &&& z) ^^^ (y &&& z)

/-- Message schedule: extend the 16 block words by `t` further words. -/
def extendW (w : List Nat) : Nat → List Nat
  | 0 => w
  | t + 1 =>
    let w' := extendW w t
    let n := w'.length
    w' ++ [w32 (ssig1 (w'.getD (n - 2) 0) + w'.getD (n - 7) 0 +
                ssig0 (w'.getD (n - 15) 0) + w'.getD (n - 16) 0)]

/-- The eight working variables of the compression loop. -/
structure H8 where
  a : Nat
  b : Nat
  c : Nat
  d : Nat
  e : Nat
  f : Nat
  g : Nat
  h : Nat

/-- One round of the compression loop, consuming a (constant, schedule
word) pair. -/
def roundStep (st : H8) (kw : Nat × Nat) : H8 :=
  let t1 := w32 (st.h + bsig1 st.e + chF st.e st.f st.g + kw.1 + kw.2)
  let t2 := w32 (bsig0 st.a + majF st.a st.b st.c)
  ⟨w32 (t1 + t2), st.a, st.b, st.c, w32 (st.d + t1), st.e, st.f, st.g⟩

/-- Compression of one 16-word block into the running hash. -/
def compressBlock (hs block : List Nat) : List Nat :=
  let ws := extendW block 48
  let st0 : H8 := ⟨hs.getD 0 0, hs.getD 1 0, hs.getD 2 0, hs.getD 3 0,
                   hs.getD 4 0, hs.getD 5 0, hs.getD 6 0, hs.getD 7 0⟩
  let s := (K256.zip ws).foldl roundStep st0
  [w32 (hs.getD 0 0 + s.a), w32 (hs.getD 1 0 + s.b), w32 (hs.getD 2 0 + s.c),
   w32 (hs.getD 3 0 + s.d), w32 (hs.getD 4 0 + s.e), w32 (hs.getD 5 0 + s.f),
   w32 (hs.getD 6 0 + s.g), w32 (hs.getD 7 0 + s.h)]

/-- Big-endian packing of bytes into 32-bit words. -/
def toWords : List Nat → List Nat
  | b0 :: b1 :: b2 :: b3 :: rest =>
    (((b0 * 256 + b1) * 256 + b2) * 256 + b3) :: toWords rest
  | _ => []

/-- The 8-byte big-endian encoding of the bit length. -/
def lenBytes8 (n : Nat) : List Nat :=
  [(n >>> 56) % 256, (n >>> 48) % 256, (n >>> 40) % 256, (n >>> 32) % 256,
   (n >>> 24) % 256, (n >>> 16) % 256, (n >>> 8) % 256, n % 256]

/-- SHA-256 padding: a 1-bit, zeros to 56 mod 64 bytes, then the bit
length. -/
def padMessage (msg : List Nat) : List Nat :=
  msg ++ 128 :: List.replicate ((119 - msg.length % 64) % 64) 0
      ++ lenBytes8 (8 * msg.length)

/-- Split a word list into 16-word blocks (padded input always has a
multiple of 16 words, so a short trailing group cannot occur and is
dropped). -/
def chunk16 : List Nat → List (List Nat)
  | w0 :: w1 :: w2 :: w3 :: w4 :: w5 :: w6 :: w7 ::
    w8 :: w9 :: w10 :: w11 :: w12 :: w13 :: w14 :: w15 :: rest =>
    [w0, w1, w2, w3, w4, w5, w6, w7, w8, w9, w10, w11, w12, w13, w14, w15] ::
    chunk16 rest
  | _ => []

/-- SHA-256 of a byte list, as a 32-byte list. -/
def sha256 (msg : List Nat) : List Nat :=
  let hsf := (chunk16 (toWords (padMessage msg))).foldl compressBlock H0
  hsf.flatMap (fun w => [(w >>> 24) % 256, (w >>> 16) % 256, (w >>> 8) % 256, w % 256])

/-- HMAC-SHA256 with a 64-byte block size. -/
def hmacSha256 (key msg : List Nat) : List Nat :=
  let k0 := if 64 < key.length then sha256 key else key
  let kp := k0 ++ List.replicate (64 - k0.length) 0
  sha256 ((kp.map (fun b => b ^^^ 92)) ++ sha256 ((kp.map (fun b => b ^^^ 54)) ++ msg))

/-- The base64 alphabet. -/
def b64chars : List Char :=
  "ABCDEFGHIJKLMNOPQRSTUVWXYZabcdefghijklmnopqrstuvwxyz0123456789+/".toList

/-- Character for a 6-bit group. -/
def b64char (n : Nat) : Char := b64chars.getD n 'A'

/-- Base64 encoding of a byte list (with `=` padding). -/
def b64encodeList : List Nat → List Char
  | b0 :: b1 :: b2 :: rest =>
    b64char (b0 >>> 2) :: b64char ((b0 % 4) * 16 + (b1 >>> 4)) ::
    b64char ((b1 % 16) * 4 + (b2 >>> 6)) :: b64char (b2 % 64) :: b64encodeList rest
  | [b0, b1] =>
    [b64char (b0 >>> 2), b64char ((b0 % 4) * 16 + (b1 >>> 4)),
     b64char ((b1 % 16) * 4), '=']
  | [b0] => [b64char (b0 >>> 2), b64char ((b0 % 4) * 16), '=', '=']
  | [] => []

/-- Base64 encoding as a string. -/
def b64encode (bs : List Nat) : String := String.mk (b64encodeList bs)

/-- Index of a character in the base64 alphabet. -/
def b64val (c : Char) : Nat :=
  match b64chars.indexOf? c with
  | some i => i
  | none => 0

/-- Base64 decoding of a string (groups of four characters, honouring
`=` padding). -/
def b64decodeList : List Char → List Nat
  | c0 :: c1 :: c2 :: c3 :: rest =>
    let v0 := b64val c0
    let v1 := b64val c1
    let v2 := b64val c2
    let v3 := b64val c3
    if c2 = '=' then [v0 * 4 + (v1 >>> 4)]
    else if c3 = '=' then [v0 * 4 + (v1 >>> 4), (v1 % 16) * 16 + (v2 >>> 2)]
    else (v0 * 4 + (v1 >>> 4)) :: ((v1 % 16) * 16 + (v2 >>> 2)) ::
         ((v2 % 4) * 64 + v3) :: b64decodeList rest
  | _ => []

/-- Base64 decoding of a string to bytes. -/
def b64decode (s : String) : List Nat := b64decodeList s.data

/-- Byte view of an ASCII string (the handshake nonce and message tags
are ASCII, where the UTF-8 bytes coincide with the code points). -/
def asciiBytes (s : String) : List Nat := s.data.map Char.toNat

end Crypto

/-- Modelled from the spec: the outbound auth message's `hmac` field,
computed by the authentication handshake of the second `index.js`
variant (not under `src/`) — HMAC-SHA256 of the nonce, keyed with the
base64-decoded environment secret, base64-encoded (spec section 4.2
step 3 and the section 6 handshake wire format). -/
def authHmacResponse (secretB64 nonce : String) : String :=
  Crypto.b64encode (Crypto.hmacSha256 (Crypto.b64decode secretB64) (Crypto.asciiBytes nonce))

end Quill

namespace Quill

/-! ## Helper lemmas -/

/-- Decimal digit characters are distinct for distinct digits. -/
lemma digitChar_inj_lt : ∀ a < 10, ∀ b < 10, Nat.digitChar a = Nat.digitChar b → a = b := by
  decide

/-- Mapping `Nat.digitChar` over digit lists is injective. -/
lemma map_digitChar_inj : ∀ {xs ys : List Nat}, (∀ x ∈ xs, x < 10) → (∀ y ∈ ys, y < 10) →
    xs.map Nat.digitChar = ys.map Nat.digitChar → xs = ys := by
  intro xs
  induction xs with
  | nil => intro ys _ _ h; cases ys <;> simp_all
  | cons x xs ih =>
    intro ys hx hy h
    cases ys with
    | nil => simp_all
    | cons y ys =>
      simp only [List.map_cons, List.cons.injEq] at h
      have hx0 := hx x (by simp)
      have hy0 := hy y (by simp)
      have : x = y := digitChar_inj_lt x hx0 y hy0 h.1
      subst this
      have := ih (fun z hz => hx z (by simp [hz])) (fun z hz => hy z (by simp [hz])) h.2
      simp [this]

/-- The decimal stringification used for correlation ids is injective:
distinct counters yield distinct id strings. -/
lemma decStr_injective : Function.Injective decStr := by
  intro m n h
  unfold decStr at h
  have digs : ∀ k : Nat, ∀ d ∈ (Nat.digits 10 k).reverse, d < 10 := by
    intro k d hd
    exact Nat.digits_lt_base (by norm_num) (List.mem_reverse.mp hd)
  by_cases hm : m = 0 <;> by_cases hn : n = 0 <;> simp only [hm, hn, if_true, if_false,
    if_neg, if_pos] at h
  · omega
  · have hdata := congrArg String.data h
    simp only [String.mk] at hdata
    have : [(0 : Nat)] = (Nat.digits 10 n).reverse := by
      apply map_digitChar_inj (by simp) (digs n)
      simpa using hdata
    have hdig : Nat.digits 10 n = [0] := by
      have := congrArg List.reverse this
      simpa using this.symm
    have := Nat.ofDigits_digits 10 n
    rw [hdig] at this
    simp [Nat.ofDigits] at this
    omega
  · have hdata := congrArg String.data h
    simp only [String.mk] at hdata
    have : (Nat.digits 10 m).reverse = [(0 : Nat)] := by
      apply map_digitChar_inj (digs m) (by simp)
      simpa using hdata
    have hdig : Nat.digits 10 m = [0] := by
      have := congrArg List.reverse this
      simpa using this
    have := Nat.ofDigits_digits 10 m
    rw [hdig] at this
    simp [Nat.ofDigits] at this
    omega
  · have hdata := congrArg String.data h
    simp only [String.mk] at hdata
    have hrev := map_digitChar_inj (digs m) (digs n) hdata
    have : Nat.digits 10 m = Nat.digits 10 n := by
      have := congrArg List.reverse hrev
      simpa using this
    calc m = Nat.ofDigits 10 (Nat.digits 10 m) := (Nat.ofDigits_digits 10 m).symm
      _ = Nat.ofDigits 10 (Nat.digits 10 n) := by rw [this]
      _ = n := Nat.ofDigits_digits 10 n

/-- Deleting a key removes it from the map. -/
lemma mapGet_mapDelete_self (p : Pending) (k : String) :
    mapGet (mapDelete p k) k = none := by
  induction p with
  | nil => rfl
  | cons q rest ih =>
    by_cases hq : q.1 = k
    · simpa [mapDelete, List.filter, hq] using ih
    · simpa [mapDelete, List.filter, hq, mapGet] using ih

/-- The id allocated by the `i`-th of `n` successive calls is the
decimal string of the `i`-th successive counter value. -/
lemma allocIds_getD (envT : Option Nat) :
    ∀ (n i : Nat) (st : RegState), i < n →
      (allocIds envT st n).getD i "" = decStr (st.nextId + i) := by
  intro n
  induction n with
  | zero => omega
  | succ n ih =>
    intro i st hi
    cases i with
    | zero => simp [allocIds, registerCall]
    | succ i =>
      have h2 := ih i (registerCall envT st).2.2 (by omega)
      simpa [allocIds, registerCall, Nat.add_assoc, Nat.add_comm 1 i] using h2

/-- Recognizer for a rejection event that targets caller `c` with the
uniform connection-closed error. -/
def isRejectClosedTo (c : Nat) : Ev → Bool
  | .reject c2 .socketClosed => c2 == c
  | _ => false

/-- The close events contain one closed-rejection per pending entry
whose caller is `c`. -/
lemma closeEvents_filter_count (p : Pending) (c : Nat) :
    ((handleClose p).2.filter (isRejectClosedTo c)).length
      = (p.filter (fun q => q.2.caller == c)).length := by
  simp only [handleClose]
  induction p with
  | nil => rfl
  | cons q rest ih =>
    rw [List.flatMap_cons, List.filter_append, List.length_append, ih]
    by_cases h : q.2.caller == c
    · simp [List.filter, isRejectClosedTo, h]
      omega
    · simp [List.filter, isRejectClosedTo, h]

/-- In a map with pairwise distinct callers, exactly one entry carries
a member entry's caller. -/
lemma filter_caller_length_one (p : Pending)
    (hnd : (p.map (fun q => q.2.caller)).Nodup)
    {q : String × Entry} (hq : q ∈ p) :
    (p.filter (fun r => r.2.caller == q.2.caller)).length = 1 := by
  induction p with
  | nil => cases hq
  | cons a rest ih =>
    simp only [List.map_cons, List.nodup_cons] at hnd
    rcases List.mem_cons.mp hq with h | h
    · subst h
      have hnil : rest.filter (fun r => r.2.caller == q.2.caller) = [] := by
        rw [List.filter_eq_nil_iff]
        intro r hr
        simp only [beq_iff_eq]
        intro hcontra
        exact hnd.1 (hcontra ▸ List.mem_map_of_mem (fun s => s.2.caller) hr)
      simp [List.filter, hnil]
    · have hrec := ih hnd.2 h
      by_cases ha : a.2.caller == q.2.caller
      · exact absurd (beq_iff_eq.mp ha ▸ List.mem_map_of_mem (fun s => s.2.caller) h)
          hnd.1
      · simp [List.filter, ha, hrec]

/-- Splitting a trace extended by one event around a chosen element:
the element is the new last event, or it already lay in the old
trace. -/
lemma append_singleton_split {α : Type} {l pre suf : List α} {a b : α}
    (h : l ++ [a] = pre ++ b :: suf) :
    (pre = l ∧ b = a ∧ suf = []) ∨ ∃ suf2, l = pre ++ b :: suf2 := by
  induction pre generalizing l with
  | nil =>
    cases l with
    | nil =>
      simp only [List.nil_append] at h
      obtain ⟨hb, hs⟩ := List.cons.inj h
      exact Or.inl ⟨rfl, hb.symm, hs.symm⟩
    | cons x l2 =>
      simp only [List.cons_append, List.nil_append] at h
      obtain ⟨hb, _⟩ := List.cons.inj h
      exact Or.inr ⟨l2, by rw [hb]; rfl⟩
  | cons pp pre ih =>
    cases l with
    | nil =>
      simp only [List.nil_append, List.cons_append] at h
      obtain ⟨_, hs⟩ := List.cons.inj h
      exact absurd hs.symm (by simp)
    | cons x l2 =>
      simp only [List.cons_append] at h
      obtain ⟨hx, h2⟩ := List.cons.inj h
      rcases ih h2 with ⟨h1, hb, hs⟩ | ⟨suf2, hl⟩
      · exact Or.inl ⟨by rw [hx, h1], hb, hs⟩
      · exact Or.inr ⟨suf2, by rw [hx, hl]; rfl⟩

/-- The gate invariant holds initially. -/
lemma gateInv_init (queued : List (Nat × Nat)) : GateInv (initGateSys queued) := by
  refine ⟨by simp [initGateSys], ?_, ?_⟩
  · intro c hc hst
    simp only [initGateSys, List.mem_map] at hc
    obtain ⟨pq, _, hpq⟩ := hc
    exact absurd (by rw [← hpq]) hst
  · intro i k pre suf h
    exact absurd h.symm (by simp [initGateSys])

/-- The gate invariant is preserved by every event-loop step. -/
lemma gateInv_step {s s' : GateSys} (hs : GateInv s) (hstep : GateStep s s') :
    GateInv s' := by
  obtain ⟨h1, h2, h3⟩ := hs
  cases hstep with
  | resolveAuth k =>
    refine ⟨?_, ?_, ?_⟩
    · intro k2 hk2
      rcases List.mem_cons.mp hk2 with h | h
      · subst h; simp
      · exact List.mem_append_left _ (h1 k2 h)
    · intro c hc hst
      exact List.mem_append_left _ (h2 c hc hst)
    · intro i k2 pre suf h
      rcases append_singleton_split h with ⟨_, hb, _⟩ | ⟨suf2, hl⟩
      · exact absurd hb (by simp)
      · exact h3 i k2 pre suf2 hl
  | passGate pre post i k hc hk =>
    refine ⟨h1, ?_, h3⟩
    intro c hcm hst
    rcases List.mem_append.mp hcm with h | h
    · exact h2 c (hc ▸ List.mem_append_left _ h) hst
    · rcases List.mem_cons.mp h with h | h
      · subst h; exact h1 k hk
      · exact h2 c (hc ▸ List.mem_append_right _ (List.mem_cons_of_mem _ h)) hst
  | sendStep pre post i k hc =>
    have hsent : AuthEv.authResolved k ∈ s.trace :=
      h2 ⟨i, k, .readySend⟩ (hc ▸ List.mem_append_right _ (List.mem_cons_self _ _))
        (by simp)
    refine ⟨?_, ?_, ?_⟩
    · intro k2 hk2
      exact List.mem_append_left _ (h1 k2 hk2)
    · intro c hcm hst
      rcases List.mem_append.mp hcm with h | h
      · exact List.mem_append_left _ (h2 c (hc ▸ List.mem_append_left _ h) hst)
      · rcases List.mem_cons.mp h with h | h
        · subst h; exact List.mem_append_left _ hsent
        · exact List.mem_append_left _
            (h2 c (hc ▸ List.mem_append_right _ (List.mem_cons_of_mem _ h)) hst)
    · intro i2 k2 pre2 suf2 h
      rcases append_singleton_split h with ⟨hpre, hb, _⟩ | ⟨suf3, hl⟩
      · obtain ⟨_, hk2⟩ := AuthEv.sendFrame.inj hb
        subst hk2
        exact hpre ▸ hsent
      · exact h3 i2 k2 pre2 suf3 hl

/-- The gate invariant holds in every reachable configuration. -/
lemma gateInv_reaches {s0 s : GateSys} (h : GateReaches s0 s) (h0 : GateInv s0) :
    GateInv s := by
  induction h with
  | refl => exact h0
  | tail _ hstep ih => exact gateInv_step ih hstep

/-! ## Claim theorems -/

/-- C1: in every configuration the event loop can reach from a state
where calls are queued before authentication completes, every request
frame on the trace is preceded by the resolution of the authentication
latch of the connection instance it was sent on — no request is written
to the transport before the gate for that connection resolves. -/
theorem no_send_before_auth_resolved (queued : List (Nat × Nat)) (s : GateSys)
    (h : GateReaches (initGateSys queued) s)
    (i k : Nat) (pre suf : List AuthEv)
    (ht : s.trace = pre ++ AuthEv.sendFrame i k :: suf) :
    AuthEv.authResolved k ∈ pre :=
  (gateInv_reaches h (gateInv_init queued)).2.2 i k pre suf ht

/-- Witness for C1: a single queued call on connection instance 0 that
resolves, passes the gate and sends; on the resulting trace the send is
preceded by the latch resolution. -/
theorem no_send_before_auth_witness :
    AuthEv.authResolved 0 ∈ [AuthEv.authResolved 0] :=
  no_send_before_auth_resolved [(1, 0)]
    ⟨[⟨1, 0, .sent⟩], [0], [.authResolved 0, .sendFrame 1 0]⟩
    (Relation.ReflTransGen.head (GateStep.resolveAuth _ 0)
      (Relation.ReflTransGen.head (GateStep.passGate _ [] [] 1 0 rfl (List.Mem.head _))
        (Relation.ReflTransGen.single (GateStep.sendStep _ [] [] 1 0 rfl))))
    1 0 [.authResolved 0] [] rfl

/-- C2: the close handler empties the pending map, and every entry that
was pending at close time has its timer cleared and is rejected exactly
once, with the uniform connection-closed error. -/
theorem close_rejects_all_pending_exactly_once (p : Pending)
    (hnd : (p.map (fun q => q.2.caller)).Nodup) :
    (handleClose p).1 = [] ∧
    ∀ q ∈ p, Ev.clearTimer q.2.timer ∈ (handleClose p).2 ∧
      Ev.reject q.2.caller .socketClosed ∈ (handleClose p).2 ∧
      ((handleClose p).2.filter (isRejectClosedTo q.2.caller)).length = 1 := by
  refine ⟨rfl, fun q hq => ⟨?_, ?_, ?_⟩⟩
  · simp only [handleClose, List.mem_flatMap]
    exact ⟨q, hq, by simp⟩
  · simp only [handleClose, List.mem_flatMap]
    exact ⟨q, hq, by simp⟩
  · rw [closeEvents_filter_count]
    exact filter_caller_length_one p hnd hq

/-- Witness for C2 at concrete inputs: closing with entries for callers
1 and 2 pending clears both timers, rejects caller 1 exactly once with
the closed error, and empties the map. -/
theorem close_rejects_witness :
    (handleClose [("1", ⟨1, 0⟩), ("2", ⟨2, 1⟩)]).1 = [] ∧
    Ev.clearTimer 0 ∈ (handleClose [("1", ⟨1, 0⟩), ("2", ⟨2, 1⟩)]).2 ∧
    Ev.reject 1 .socketClosed ∈ (handleClose [("1", ⟨1, 0⟩), ("2", ⟨2, 1⟩)]).2 ∧
    ((handleClose [("1", ⟨1, 0⟩), ("2", ⟨2, 1⟩)]).2.filter (isRejectClosedTo 1)).length
      = 1 := by
  have h := close_rejects_all_pending_exactly_once [("1", ⟨1, 0⟩), ("2", ⟨2, 1⟩)]
    (by decide)
  have h2 := h.2 ("1", ⟨1, 0⟩) (by decide)
  exact ⟨h.1, h2.1, h2.2.1, h2.2.2⟩

/-- C5: with schema version 3 cached, the outbound params carry the
out-of-band `_clientSchemaVersion: 3` field; a reply whose structured
error has code `schema_outdated` clears the cached version and yields
the retry-instructing failure result (flagged as a failure, not a
generic error, and without throwing — `invokeCapability` is total),
while a structured error with any other code keeps the cache and yields
the generic error result. -/
theorem schema_version_attached_and_cleared (args : List (String × Json)) :
    ("_clientSchemaVersion", Json.jnum 3) ∈ invokeParams (some 3) args ∧
    invokeCapability (some 3) (.error (.jobj [("code", .jstr "schema_outdated")]))
      = (none, .schemaOutdatedRetry) ∧
    capIsError .schemaOutdatedRetry = true ∧
    invokeCapability (some 3) (.error (.jobj [("code", .jstr "other")]))
      = (some 3, .genericFailure (jsToString (.jobj [("code", .jstr "other")]))) :=
  ⟨by simp [invokeParams], rfl, rfl, rfl⟩

/-- C6: for nonce "abc123" and base64 secret "c2VjcmV0" (decoding to
the key bytes of "secret"), the outbound auth hash equals the base64
encoding of HMAC-SHA256 of the nonce keyed with the base64-decoded
secret — and that value is the one below. -/
theorem auth_hmac_scenario :
    authHmacResponse "c2VjcmV0" "abc123"
      = "WuWsgCoaXJT7aD4b+hIfn3AKJplSE/8vwcUD60PsccY=" ∧
    authHmacResponse "c2VjcmV0" "abc123"
      = Crypto.b64encode (Crypto.hmacSha256 (Crypto.b64decode "c2VjcmV0")
          (Crypto.asciiBytes "abc123")) ∧
    Crypto.b64decode "c2VjcmV0" = Crypto.asciiBytes "secret" :=
  ⟨by decide, rfl, by decide⟩

/-- C7 counterexample: a successful invocation returns an object with
no `isError` property at all, so not every result of the handler
carries an explicit error flag as the claim states. -/
theorem adapter_success_result_lacks_isError_field :
    (handleCallTool "get_transcript" noArgs (.ok (some (.jstr "t")))).isError
      = none := rfl

/-- C7 as amended: for every tool invocation the handler returns a
structured single-element content result and never propagates an
exception (`handleCallTool` is total); whenever the awaited bridge call
rejects — with any error, and for unknown tools too — the result
carries the explicit flag `isError: true`; successful results omit the
flag. -/
theorem adapter_failure_flagged_and_structured (name : String) (args : ToolArgs)
    (e : String) :
    (handleCallTool name args (.err e)).isError = some true ∧
    (∃ msg, (handleCallTool name args (.err e)).content = [.plain ("Error: " ++ msg)]) ∧
    ∀ outcome, (handleCallTool name args outcome).content.length = 1 := by
  refine ⟨?_, ?_, ?_⟩
  · cases hs : sentRequest name args <;> simp [handleCallTool, runTool, hs]
  · cases hs : sentRequest name args
    · exact ⟨"Unknown tool: " ++ name, by simp [handleCallTool, runTool, hs]⟩
    · exact ⟨e, by simp [handleCallTool, runTool, hs]⟩
  · intro outcome
    cases hs : sentRequest name args with
    | none => simp [handleCallTool, runTool, hs]
    | some pr =>
      cases outcome with
      | err e2 => simp [handleCallTool, runTool, hs]
      | ok data =>
        cases h2 : toolOutput name data <;> simp [handleCallTool, runTool, hs, h2]

/-- The nullish-coalescing operator passes any defined non-null value
through unchanged. -/
lemma nullish_some {v : Json} (hv : v ≠ Json.jnull) (d : Json) :
    nullish (some v) d = v := by
  cases v with
  | jnull => exact absurd rfl hv
  | jbool b => rfl
  | jnum n => rfl
  | jstr s => rfl
  | jarr xs => rfl
  | jobj fs => rfl

/-- C10: for the five paginated tools an omitted `limit` is forwarded
to the bridge as 10 and an omitted `offset` as 0 (`list_threads`
substitutes `meetings_limit` 10), while a caller-supplied (non-null)
value is passed through unchanged. -/
theorem adapter_pagination_defaults (args : ToolArgs) (v : Json)
    (hv : v ≠ Json.jnull) :
    sentParam "list_meetings" { args with limit := none } "limit"
      = some (some (.jnum 10)) ∧
    sentParam "list_meetings" { args with offset := none } "offset"
      = some (some (.jnum 0)) ∧
    sentParam "list_meetings" { args with limit := some v } "limit" = some (some v) ∧
    sentParam "list_meetings" { args with offset := some v } "offset" = some (some v) ∧
    sentParam "search_meetings" { args with limit := none } "limit"
      = some (some (.jnum 10)) ∧
    sentParam "search_meetings" { args with offset := none } "offset"
      = some (some (.jnum 0)) ∧
    sentParam "search_meetings" { args with limit := some v } "limit" = some (some v) ∧
    sentParam "search_meetings" { args with offset := some v } "offset" = some (some v) ∧
    sentParam "list_notes" { args with limit := none } "limit"
      = some (some (.jnum 10)) ∧
    sentParam "list_notes" { args with offset := none } "offset"
      = some (some (.jnum 0)) ∧
    sentParam "list_notes" { args with limit := some v } "limit" = some (some v) ∧
    sentParam "list_notes" { args with offset := some v } "offset" = some (some v) ∧
    sentParam "list_contacts" { args with limit := none } "limit"
      = some (some (.jnum 10)) ∧
    sentParam "list_contacts" { args with offset := none } "offset"
      = some (some (.jnum 0)) ∧
    sentParam "list_contacts" { args with limit := some v } "limit" = some (some v) ∧
    sentParam "list_contacts" { args with offset := some v } "offset" = some (some v) ∧
    sentParam "search_contacts" { args with limit := none } "limit"
      = some (some (.jnum 10)) ∧
    sentParam "search_contacts" { args with offset := none } "offset"
      = some (some (.jnum 0)) ∧
    sentParam "search_contacts" { args with limit := some v } "limit" = some (some v) ∧
    sentParam "search_contacts" { args with offset := some v } "offset" = some (some v) ∧
    sentParam "list_threads" { args with meetings_limit := none } "meetings_limit"
      = some (some (.jnum 10)) ∧
    sentParam "list_threads" { args with meetings_limit := some v } "meetings_limit"
      = some (some v) := by
  have h10 : nullish (some v) (Json.jnum 10) = v := nullish_some hv _
  have h0 : nullish (some v) (Json.jnum 0) = v := nullish_some hv _
  exact ⟨rfl, rfl,
    congrArg (fun x => some (some x)) h10, congrArg (fun x => some (some x)) h0,
    rfl, rfl,
    congrArg (fun x => some (some x)) h10, congrArg (fun x => some (some x)) h0,
    rfl, rfl,
    congrArg (fun x => some (some x)) h10, congrArg (fun x => some (some x)) h0,
    rfl, rfl,
    congrArg (fun x => some (some x)) h10, congrArg (fun x => some (some x)) h0,
    rfl, rfl,
    congrArg (fun x => some (some x)) h10, congrArg (fun x => some (some x)) h0,
    rfl,
    congrArg (fun x => some (some x)) h10⟩

/-- Witness for C10 at concrete inputs: a caller-supplied limit 5 for
`list_meetings` is forwarded unchanged. -/
theorem adapter_pagination_witness :
    sentParam "list_meetings" { noArgs with limit := some (.jnum 5) } "limit"
      = some (some (.jnum 5)) :=
  (adapter_pagination_defaults noArgs (.jnum 5)
    (fun h => Json.noConfusion h)).2.2.1

/-- C3: correlation ids are the decimal strings of strictly increasing
counter values, pairwise distinct across any sequence of calls (hence
never reused), and a reply whose id matches no pending entry leaves the
pending map unchanged and produces no effect (the handler returns
normally, so no exception escapes). -/
theorem correlation_ids_increasing_and_unknown_reply_noop
    (envT : Option Nat) (st : RegState) (n i j : Nat) (hij : i < j) (hjn : j < n)
    (m : InMsg) (p : Pending)
    (hunknown : ∀ idv, m.id = some idv → mapGet p (jsToString idv) = none) :
    (allocIds envT st n).getD i "" = decStr (st.nextId + i) ∧
    (allocIds envT st n).getD j "" = decStr (st.nextId + j) ∧
    st.nextId + i < st.nextId + j ∧
    (allocIds envT st n).getD i "" ≠ (allocIds envT st n).getD j "" ∧
    handleMessage (some m) p = (p, []) := by
  refine ⟨allocIds_getD envT n i st (by omega), allocIds_getD envT n j st hjn,
    by omega, ?_, ?_⟩
  · rw [allocIds_getD envT n i st (by omega), allocIds_getD envT n j st hjn]
    intro h
    have := decStr_injective h
    omega
  · cases hid : m.id with
    | none => simp [handleMessage, jsFalsy, hid]
    | some idv =>
      by_cases hf : jsFalsy (some idv)
      · simp [handleMessage, hid, hf]
      · simp [handleMessage, hid, hf, hunknown idv hid]

/-- Witness for C3 at concrete inputs: three successive calls from a
fresh client allocate ids "1" and "2" for positions 0 and 1, and a
reply with the unknown id "99" against a map holding only id "1" is a
no-op. -/
theorem correlation_ids_witness :
    (allocIds none ⟨1, 0, []⟩ 3).getD 0 "" = decStr (1 + 0) ∧
    (allocIds none ⟨1, 0, []⟩ 3).getD 1 "" = decStr (1 + 1) ∧
    1 + 0 < 1 + 1 ∧
    (allocIds none ⟨1, 0, []⟩ 3).getD 0 "" ≠ (allocIds none ⟨1, 0, []⟩ 3).getD 1 "" ∧
    handleMessage (some ⟨some (.jstr "99"), none, none⟩) [("1", ⟨1, 0⟩)]
      = ([("1", ⟨1, 0⟩)], []) :=
  correlation_ids_increasing_and_unknown_reply_noop none ⟨1, 0, []⟩ 3 0 1
    (by decide) (by decide) ⟨some (.jstr "99"), none, none⟩ [("1", ⟨1, 0⟩)]
    (by intro idv h; injection h with h; subst h; decide)

/-- C4: the scheduled per-call timer duration is `TIMEOUT_MS`, which
defaults to 10000 ms and follows the environment override when one is
configured; when the timer fires, the entry is removed from the pending
map and the call is rejected with the timeout-specific error, and a
reply for that id arriving afterwards is a no-op. -/
theorem call_timeout_duration_fire_and_late_reply
    (envT : Option Nat) (t : Nat) (st : RegState)
    (id : String) (c : Nat) (p : Pending) (m : InMsg)
    (hm : m.id = some (.jstr id)) :
    TIMEOUT_MS none = 10000 ∧
    TIMEOUT_MS (some t) = t ∧
    (registerCall envT st).2.1 = TIMEOUT_MS envT ∧
    mapGet (timerFire id c p).1 id = none ∧
    (timerFire id c p).2 = [.reject c .timeout] ∧
    handleMessage (some m) (timerFire id c p).1 = ((timerFire id c p).1, []) := by
  refine ⟨rfl, rfl, rfl, mapGet_mapDelete_self p id, rfl, ?_⟩
  by_cases hf : jsFalsy m.id
  · simp [handleMessage, hm, hm ▸ hf, timerFire]
  · have hget := mapGet_mapDelete_self p id
    simp [handleMessage, hm, hm ▸ hf, timerFire, jsToString, jsToStringD, hget]

/-- Witness for C4 at concrete inputs: a registered call with the
override 5000 is scheduled for 5000 ms; firing the timer for id "3"
drains that entry and rejects with the timeout error; a late reply for
id "3" is then a no-op. -/
theorem call_timeout_witness :
    TIMEOUT_MS none = 10000 ∧
    TIMEOUT_MS (some 5000) = 5000 ∧
    (registerCall (some 5000) ⟨1, 0, []⟩).2.1 = TIMEOUT_MS (some 5000) ∧
    mapGet (timerFire "3" 9 [("3", ⟨9, 2⟩)]).1 "3" = none ∧
    (timerFire "3" 9 [("3", ⟨9, 2⟩)]).2 = [.reject 9 .timeout] ∧
    handleMessage (some ⟨some (.jstr "3"), none, none⟩) (timerFire "3" 9 [("3", ⟨9, 2⟩)]).1
      = ((timerFire "3" 9 [("3", ⟨9, 2⟩)]).1, []) :=
  call_timeout_duration_fire_and_late_reply (some 5000) 5000 ⟨1, 0, []⟩
    "3" 9 [("3", ⟨9, 2⟩)] ⟨some (.jstr "3"), none, none⟩ rfl

/-- C8: `ensureSocket` returns the held connection unchanged when it is
OPEN or CONNECTING, while a CLOSING or CLOSED handle is terminated and
replaced by a fresh connection toward the fixed platform-dependent
endpoint (named-pipe URL on Windows, filesystem-socket URL
otherwise). -/
theorem ensure_socket_reuse_or_recreate (w : Bool) (u : String) :
    ensureSocket w (some ⟨u, .OPEN⟩) = (⟨u, .OPEN⟩, some ⟨u, .OPEN⟩, []) ∧
    ensureSocket w (some ⟨u, .CONNECTING⟩) = (⟨u, .CONNECTING⟩, some ⟨u, .CONNECTING⟩, []) ∧
    ensureSocket w (some ⟨u, .CLOSING⟩)
      = (newSocket w, some (newSocket w), [.terminate, .create (CLIENT_URL w)]) ∧
    ensureSocket w (some ⟨u, .CLOSED⟩)
      = (newSocket w, some (newSocket w), [.terminate, .create (CLIENT_URL w)]) ∧
    ensureSocket w none = (newSocket w, some (newSocket w), [.create (CLIENT_URL w)]) ∧
    (newSocket w).url = CLIENT_URL w ∧
    CLIENT_URL true = "ws+pipe://./pipe/quill_mcp" ∧
    CLIENT_URL false = "ws+unix:///tmp/quill_mcp.sock" ∧
    SOCKET_PATH true = "\\\\.\\pipe\\quill_mcp" ∧
    SOCKET_PATH false = "/tmp/quill_mcp.sock" :=
  ⟨rfl, rfl, rfl, rfl, rfl, rfl, by decide, by decide, by decide, by decide⟩

/-- C9: replies are correlated by id, not send order — with calls under
ids `ka` and `kb` both pending, a reply carrying id `kb` resolves that
entry alone, and the `ka` entry remains in the pending map. -/
theorem replies_correlated_by_id (ka kb : String) (ea eb : Entry) (res : Option Json)
    (hne : ka ≠ kb) (hkb : kb ≠ "") :
    handleMessage (some ⟨some (.jstr kb), res, none⟩) [(ka, ea), (kb, eb)]
      = ([(ka, ea)], [.clearTimer eb.timer, .resolve eb.caller res]) ∧
    mapGet [(ka, ea)] ka = some ea := by
  constructor
  · simp [handleMessage, jsFalsy, hkb, jsToString, jsToStringD, mapGet, hne, mapDelete,
      List.filter]
  · simp [mapGet]

/-- Witness for C9 at concrete inputs: ids "1" and "2" pending, the
reply for id "2" arrives first and resolves caller 2, while id "1"
stays pending. -/
theorem replies_correlated_witness :
    handleMessage (some ⟨some (.jstr "2"), some (.jstr "ok"), none⟩)
        [("1", ⟨1, 0⟩), ("2", ⟨2, 1⟩)]
      = ([("1", ⟨1, 0⟩)], [.clearTimer 1, .resolve 2 (some (.jstr "ok"))]) ∧
    mapGet [("1", (⟨1, 0⟩ : Entry))] "1" = some ⟨1, 0⟩ :=
  replies_correlated_by_id "1" "2" ⟨1, 0⟩ ⟨2, 1⟩ (some (.jstr "ok"))
    (by decide) (by decide)

end Quill
